import Mathlib

/-!
# Verification of the archivelogs statistics core (src/app.py)

This file is a shallow embedding, in Lean 4, of the pure computational core of
`src/app.py`: the ISO-8601 duration parser, the record-row video classifier,
the eligibility filter of the video fetchers, the page-collection loops, the
channel-status aggregation (cumulative ratio metrics, top-5 playlists and the
10/30-day window summaries), and the session quota counter.  Python integers
are modelled by `Nat`/`Int`, Python floats and `round` by exact rationals with
round-half-to-even, Python dicts by association lists that preserve insertion
order, and a call that may raise by an `Option` input whose `none` case models
the raised exception.
-/

/-! ## Duration parser (src/app.py, `parse_iso8601_duration`, lines 394-413)

The Python function matches the anchored regular expression
`PT(\d+H)?(\d+M)?(\d+S)?` (each group optional) and returns
`h*3600 + m*60 + s`, or `0` when the string does not match.  Two points of
fidelity: Python's `$` anchor also matches just before one trailing newline at
the end of the string (modelled by `dropTrailingNewline`), and `\d` in a str
pattern matches exactly the Unicode general category Nd (decimal digits), not
only ASCII -- e.g. the Arabic-Indic digit five -- and `int()` accepts every
such digit, valuing it by its offset in its 0-9 run. -/

/-- First code points of the 66 ten-character runs that make up Unicode
category Nd, the set matched by Python's `\d` (CPython 3.11, Unicode 14):
each run is the digits 0 to 9 of one script, in order. -/
def pyDigitBases : List Nat :=
  [0x30, 0x660, 0x6F0, 0x7C0, 0x966, 0x9E6, 0xA66, 0xAE6,
   0xB66, 0xBE6, 0xC66, 0xCE6, 0xD66, 0xDE6, 0xE50, 0xED0,
   0xF20, 0x1040, 0x1090, 0x17E0, 0x1810, 0x1946, 0x19D0, 0x1A80,
   0x1A90, 0x1B50, 0x1BB0, 0x1C40, 0x1C50, 0xA620, 0xA8D0, 0xA900,
   0xA9D0, 0xA9F0, 0xAA50, 0xABF0, 0xFF10, 0x104A0, 0x10D30, 0x11066,
   0x110F0, 0x11136, 0x111D0, 0x112F0, 0x11450, 0x114D0, 0x11650, 0x116C0,
   0x11730, 0x118E0, 0x11950, 0x11C50, 0x11D50, 0x11DA0, 0x16A60, 0x16AC0,
   0x16B50, 0x1D7CE, 0x1D7D8, 0x1D7E2, 0x1D7EC, 0x1D7F6, 0x1E140, 0x1E2F0,
   0x1E950, 0x1FBF0]

/-- Python's `\d` digit class: membership in one of the Nd runs. -/
def isPyDigit (c : Char) : Bool :=
  pyDigitBases.any (fun b => b ≤ c.toNat && c.toNat ≤ b + 9)

/-- The decimal value of one digit, as `int()` assigns it: the offset of the
code point in its 0-9 run. -/
def pyDigitVal (c : Char) : Nat :=
  match pyDigitBases.find? (fun b => b ≤ c.toNat && c.toNat ≤ b + 9) with
  | some b => c.toNat - b
  | none => 0

/-- Split a character list into its longest digit prefix and the rest,
modelling the greedy `\d+` pieces of the regex. -/
def spanDigits : List Char → List Char × List Char
  | [] => ([], [])
  | c :: rest =>
    if isPyDigit c then ((spanDigits rest).1.cons c, (spanDigits rest).2)
    else ([], c :: rest)

/-- Numeric value of a digit string, as computed by Python `int`, which
accepts any Unicode decimal digits. -/
def digitsVal (ds : List Char) : Nat :=
  ds.foldl (fun a c => a * 10 + pyDigitVal c) 0

/-- Python's `$` anchor matches at the end of the string or just before a
single newline that ends the string; this removes that optional newline. -/
def dropTrailingNewline (cs : List Char) : List Char :=
  if cs.getLast? = some '\n' then cs.dropLast else cs

/-- Parse the optional `(\d+)S` group followed by the end of the input. -/
def parseSGroup (cs : List Char) : Option Nat :=
  if cs = [] then some 0
  else if (spanDigits cs).1 = [] then none
  else
    match (spanDigits cs).2 with
    | [] => none
    | u :: r2 => if u = 'S' ∧ r2 = [] then some (digitsVal (spanDigits cs).1) else none

/-- Parse the optional `(\d+)M` and `(\d+)S` groups followed by the end. -/
def parseMSGroup (cs : List Char) : Option Nat :=
  if cs = [] then some 0
  else if (spanDigits cs).1 = [] then none
  else
    match (spanDigits cs).2 with
    | [] => none
    | u :: r2 =>
      if u = 'M' then (parseSGroup r2).map (fun v => digitsVal (spanDigits cs).1 * 60 + v)
      else if u = 'S' ∧ r2 = [] then some (digitsVal (spanDigits cs).1)
      else none

/-- Parse the optional `(\d+)H`, `(\d+)M` and `(\d+)S` groups followed by the
end of the input, returning the total number of seconds. -/
def parseHMSGroup (cs : List Char) : Option Nat :=
  if cs = [] then some 0
  else if (spanDigits cs).1 = [] then none
  else
    match (spanDigits cs).2 with
    | [] => none
    | u :: r2 =>
      if u = 'H' then (parseMSGroup r2).map (fun v => digitsVal (spanDigits cs).1 * 3600 + v)
      else if u = 'M' then (parseSGroup r2).map (fun v => digitsVal (spanDigits cs).1 * 60 + v)
      else if u = 'S' ∧ r2 = [] then some (digitsVal (spanDigits cs).1)
      else none

/-- Character-list core of `parse_iso8601_duration`: require the `PT` prefix,
then match the three optional groups up to the `$` anchor. -/
def parseDurationChars (cs : List Char) : Nat :=
  match cs with
  | c1 :: c2 :: rest =>
    if c1 = 'P' ∧ c2 = 'T' then (parseHMSGroup (dropTrailingNewline rest)).getD 0
    else 0
  | _ => 0

/-- Embedding of `parse_iso8601_duration` (src/app.py lines 394-413): convert
an ISO-8601 duration such as `PT1H2M3S` to seconds, returning 0 on any
non-matching input (the function is total, so it never raises). -/
def parse_iso8601_duration (s : String) : Nat :=
  parseDurationChars s.data

/-! ### The duration grammar, stated independently of the parser -/

/-- A well-formed numeral for one regex group: nonempty, and every
character a Unicode decimal digit (Python's `\d`). -/
def isDigits (ds : List Char) : Prop := ds ≠ [] ∧ ∀ c ∈ ds, isPyDigit c

/-- Rendering of one optional `(\d+)u` group. -/
def optGroup (g : Option (List Char)) (u : Char) : List Char :=
  match g with
  | none => []
  | some ds => ds ++ [u]

/-- The integer value carried by one optional group (0 when absent). -/
def groupVal (g : Option (List Char)) : Nat :=
  match g with
  | none => 0
  | some ds => digitsVal ds

/-- The body of a well-formed duration after `PT`. -/
def renderGroups (hd md sd : Option (List Char)) : List Char :=
  optGroup hd 'H' ++ optGroup md 'M' ++ optGroup sd 'S'

/-- All three optional groups, when present, are digit numerals. -/
def validGroups (hd md sd : Option (List Char)) : Prop :=
  (∀ ds, hd = some ds → isDigits ds) ∧ (∀ ds, md = some ds → isDigits ds) ∧
    (∀ ds, sd = some ds → isDigits ds)

/-- The strict duration grammar of the specification: `PT` followed by the
optional integer `H`, `M`, `S` components, in that order, and nothing else. -/
def durationMatchesStrict (s : String) : Prop :=
  ∃ hd md sd, validGroups hd md sd ∧ s.data = 'P' :: 'T' :: renderGroups hd md sd

/-- The grammar the code actually accepts: the strict grammar, optionally
followed by one trailing newline (Python's `$` matches before it). -/
def durationMatchesCode (s : String) : Prop :=
  ∃ hd md sd, validGroups hd md sd ∧
    (s.data = 'P' :: 'T' :: renderGroups hd md sd ∨
      s.data = 'P' :: 'T' :: (renderGroups hd md sd ++ ['\n']))

example : parse_iso8601_duration "PT1H2M3S" = 3723 := by decide
example : parse_iso8601_duration "PT45S" = 45 := by decide
example : parse_iso8601_duration "" = 0 := by decide
example : parse_iso8601_duration "PT" = 0 := by decide
example : parse_iso8601_duration "1H2M" = 0 := by decide
example : parse_iso8601_duration "PT5S\n" = 5 := by decide
example : parse_iso8601_duration "PT3M2H" = 0 := by decide
example : parse_iso8601_duration "PT٥S" = 5 := by decide
example : parse_iso8601_duration "PT١٢M٣S" = 723 := by decide
example : parse_iso8601_duration "PT１２S" = 12 := by decide

/-! ## Record-row classifier (src/app.py, `build_record_row_from_video_item`,
lines 637-693) and the eligibility filters (lines 578-634)

A fetched video item is modelled by the fields the code reads; the
`liveStreamingDetails` dict is kept as a key/value list so that emptiness
(Python truthiness) and the presence of individual timestamps are both
expressible. -/

structure RawVideoItem where
  id : Option String
  title : Option String
  publishedAt : Option String
  liveBroadcastContent : Option String
  duration : Option String
  privacyStatus : Option String
  uploadStatus : Option String
  viewCount : Nat
  likeCount : Nat
  commentCount : Option Nat
  liveStreamingDetails : List (String × String)
deriving DecidableEq

/-- Duration in seconds of an item: `content.get("duration", "PT0S")` parsed
(src/app.py lines 648-649). -/
def recordDurationSec (it : RawVideoItem) : Nat :=
  parse_iso8601_duration (it.duration.getD "PT0S")

/-- The record-row type classifier (src/app.py lines 651-656): `live` when the
`liveStreamingDetails` dict is truthy (non-empty), else `short` when the
duration is at most 61 seconds, else `video`. -/
def recordVtype (it : RawVideoItem) : String :=
  if it.liveStreamingDetails ≠ [] then "live"
  else if recordDurationSec it ≤ 61 then "short"
  else "video"

/-- Eligibility check shared by `fetch_channel_upload_items` (lines 578-593)
and `fetch_single_video_item` (lines 623-634): public privacy status,
processed upload status, and not a currently-live or upcoming broadcast. -/
def isEligibleVideoItem (it : RawVideoItem) : Bool :=
  (it.privacyStatus == some "public") && (it.uploadStatus == some "processed") &&
    !((it.liveBroadcastContent == some "live") || (it.liveBroadcastContent == some "upcoming"))

/-- Sort key used by `fetch_channel_upload_items` line 598:
`snippet.publishedAt or ""`. -/
def pubKey (it : RawVideoItem) : String := it.publishedAt.getD ""

/-- The pure tail of `fetch_channel_upload_items` (lines 578-600): keep the
eligible items, sort them by published time ascending (Python `sorted` is
stable, modelled by insertion sort), and truncate to `max_results`, which the
function caps at 50 (line 509). -/
def fetch_channel_upload_filter (items : List RawVideoItem) (maxResults : Nat) :
    List RawVideoItem :=
  (List.insertionSort (fun a b => pubKey a ≤ pubKey b) (items.filter isEligibleVideoItem)).take
    (min maxResults 50)

/-- The pure tail of `fetch_single_video_item` (lines 619-634): take the first
item of the response, if any, and drop it unless it is eligible. -/
def fetch_single_video_filter (resp : List RawVideoItem) : Option RawVideoItem :=
  match resp with
  | [] => none
  | it :: _ => if isEligibleVideoItem it then some it else none

/-! ## Rounding and text normalisation

Python's `round(x, n)` is modelled exactly on rationals: scale by `10^n`,
round half to even, and scale back.  `str.strip()` and the
`replace("\n", " ")` title clean-up are modelled on character lists. -/

/-- Round a rational to the nearest integer, halves to the even neighbour
(the rule used by Python's `round`). -/
def roundHalfEven (q : ℚ) : ℤ :=
  if q - ⌊q⌋ < 1/2 then ⌊q⌋
  else if 1/2 < q - ⌊q⌋ then ⌊q⌋ + 1
  else if Even ⌊q⌋ then ⌊q⌋ else ⌊q⌋ + 1

/-- Python's `round(q, n)` on exact rationals. -/
def pyRound (q : ℚ) (n : Nat) : ℚ := (roundHalfEven (q * 10 ^ n) : ℚ) / 10 ^ n

/-- Replace every newline by a space, as in `title.replace("\n", " ")`. -/
def collapseNewlines (s : String) : String :=
  String.mk (s.data.map (fun c => if c = '\n' then ' ' else c))

/-- Strip leading and trailing whitespace, as in `str.strip()`. -/
def stripEnds (s : String) : String :=
  String.mk (((s.data.dropWhile Char.isWhitespace).reverse.dropWhile Char.isWhitespace).reverse)

/-- The title clean-up `(title or "").replace("\n", " ").strip()` applied to
top-video and playlist titles. -/
def normTitle (s : String) : String := stripEnds (collapseNewlines s)

/-! ## Window aggregation (src/app.py, `compute_channel_status`,
lines 969-999 for the 10-day window and 1002-1032 for the 30-day window)

The stats dict built by `get_videos_stats` is modelled as a list of
title/view-count pairs in insertion (encounter) order. -/

structure VidStat where
  title : String
  viewCount : Nat
deriving DecidableEq

structure WindowSummary where
  totalViews : Nat
  numVideos : Nat
  topTitle : String
  topViews : Nat
  topShare : ℚ
  avgViews : ℚ
  viewsPerSub : ℚ
deriving DecidableEq

/-- Python's `max(..., key=viewCount)` over the encounter order: the first
pair attaining the maximal view count wins ties (a later pair replaces the
current best only when strictly larger). -/
def maxByViews : List VidStat → Option VidStat
  | [] => none
  | p :: ps =>
    match maxByViews ps with
    | none => some p
    | some q => some (if p.viewCount < q.viewCount then q else p)

/-- The maximal view count of a window, used to state the tie-break policy
independently of `maxByViews`. -/
def maxViewCount (pairs : List VidStat) : Nat := (pairs.map VidStat.viewCount).foldr max 0

/-- One window block of `compute_channel_status` (identical for the 10-day
and 30-day windows): total views, video count, top video with share rounded
to 4 places, average views rounded to 2 places, and views per subscriber
rounded to 5 places, each ratio guarded to 0 on a zero denominator. -/
def windowAgg (pairs : List VidStat) (subs : Nat) : WindowSummary :=
  let total := (pairs.map VidStat.viewCount).sum
  let num := pairs.length
  match maxByViews pairs with
  | some top =>
    { totalViews := total
      numVideos := num
      topTitle := normTitle top.title
      topViews := top.viewCount
      topShare := if 0 < total then pyRound ((top.viewCount : ℚ) / (total : ℚ)) 4 else 0
      avgViews := if 0 < num then pyRound ((total : ℚ) / (num : ℚ)) 2 else 0
      viewsPerSub := if 0 < subs then pyRound ((total : ℚ) / (subs : ℚ)) 5 else 0 }
  | none =>
    { totalViews := total
      numVideos := num
      topTitle := ""
      topViews := 0
      topShare := 0
      avgViews := if 0 < num then pyRound ((total : ℚ) / (num : ℚ)) 2 else 0
      viewsPerSub := if 0 < subs then pyRound ((total : ℚ) / (subs : ℚ)) 5 else 0 }

/-! ## Top-5 playlists (src/app.py, `compute_channel_status`, lines 926-944) -/

structure Playlist where
  title : String
  itemCount : Nat
deriving DecidableEq

/-- The padding entry appended while fewer than 5 playlists exist
(line 935): title `"-"` and item count 0. -/
def placeholderPlaylist : Playlist := { title := "-", itemCount := 0 }

/-- `sorted(playlists, key=itemCount, reverse=True)`: Python's sort is
stable, which insertion sort with the descending relation models exactly. -/
def sortPlaylists (pls : List Playlist) : List Playlist :=
  List.insertionSort (fun a b => b.itemCount ≤ a.itemCount) pls

/-- Truncate the descending ranking to 5 slots and pad with placeholder
entries up to exactly 5 (lines 933-935). -/
def top5Playlists (pls : List Playlist) : List Playlist :=
  (sortPlaylists pls).take 5 ++
    List.replicate (5 - ((sortPlaylists pls).take 5).length) placeholderPlaylist

example :
    top5Playlists [⟨"P1", 3⟩, ⟨"P2", 7⟩] =
      [⟨"P2", 7⟩, ⟨"P1", 3⟩, ⟨"-", 0⟩, ⟨"-", 0⟩, ⟨"-", 0⟩] := by decide

/-! ## Cumulative ratio metrics (src/app.py, `compute_channel_status`,
lines 947-966) -/

structure CumulativeMetrics where
  subsPerMonth : ℚ
  subsPerVideo : ℚ
  viewsPerVideo : ℚ
  viewsPerSub : ℚ
  subsPerTotalView : ℚ
  playlistsPerVideo : ℚ
  videosPerMonth : ℚ
  videosPerSubscriber : ℚ
deriving DecidableEq

/-- The eight cumulative ratio metrics, each guarded to 0.0 when its
denominator is zero, or `None`/non-positive for the months-active ones. -/
def computeCumulativeMetrics (subs vids views playlistCount : Nat)
    (monthsActive : Option ℚ) : CumulativeMetrics :=
  { subsPerMonth :=
      match monthsActive with
      | some m => if 0 < m then pyRound ((subs : ℚ) / m) 2 else 0
      | none => 0
    subsPerVideo := if 0 < vids then pyRound ((subs : ℚ) / (vids : ℚ)) 2 else 0
    viewsPerVideo := if 0 < vids then pyRound ((views : ℚ) / (vids : ℚ)) 2 else 0
    viewsPerSub := if 0 < subs then pyRound ((views : ℚ) / (subs : ℚ)) 2 else 0
    subsPerTotalView := if 0 < views then pyRound ((subs : ℚ) / (views : ℚ)) 5 else 0
    playlistsPerVideo := if 0 < vids then pyRound ((playlistCount : ℚ) / (vids : ℚ)) 5 else 0
    videosPerMonth :=
      match monthsActive with
      | some m => if 0 < m then pyRound ((vids : ℚ) / m) 2 else 0
      | none => 0
    videosPerSubscriber := if 0 < subs then pyRound ((vids : ℚ) / (subs : ℚ)) 5 else 0 }

/-! ## Paginated collection (src/app.py, `fetch_channel_upload_items`
lines 537-561 and `search_video_ids_published_after` lines 830-853)

A run of the external source is modelled as the list of page responses the
loop would receive in order: each request either raises (`fail`) or returns
items together with whether a `nextPageToken` is present.  The boolean in the
result records whether a warning was reported (`st.warning`).  An exhausted
model-source behaves like a response without a continuation token. -/

inductive PageResult where
  | fail : PageResult
  | page : List (Option String) → Bool → PageResult
deriving DecidableEq

/-- Item ids kept from one page: `if vid:` drops both missing and empty
ids. -/
def truthyIds (ids : List (Option String)) : List String :=
  ids.filterMap (fun v =>
    match v with
    | some s => if s = "" then none else some s
    | none => none)

/-- The `playlistItems` loop of `fetch_channel_upload_items` (lines 537-561):
stop when `max_results` is reached or no continuation token remains; an
exception warns and makes the whole function return the empty list. -/
def collectUploadPages (pages : List PageResult) (maxResults : Nat) (acc : List String) :
    List String × Bool :=
  if maxResults ≤ acc.length then (acc, false)
  else
    match pages with
    | [] => (acc, false)
    | .fail :: _ => ([], true)
    | .page ids next :: rest =>
      if next then collectUploadPages rest maxResults (acc ++ truthyIds ids)
      else (acc ++ truthyIds ids, false)

/-- The loop of `search_video_ids_published_after` (lines 830-853): stop when
no continuation token remains; an exception warns and returns whatever was
accumulated so far. -/
def collectSearchPages (pages : List PageResult) (acc : List String) : List String × Bool :=
  match pages with
  | [] => (acc, false)
  | .fail :: _ => (acc, true)
  | .page ids next :: rest =>
    if next then collectSearchPages rest (acc ++ truthyIds ids)
    else (acc ++ truthyIds ids, false)

/-- All ids delivered by a list of pages, in order. -/
def pagesItems : List PageResult → List String
  | [] => []
  | .fail :: rest => pagesItems rest
  | .page ids _ :: rest => truthyIds ids ++ pagesItems rest

/-- A successful page response that carries a continuation token. -/
def isOkNextPage : PageResult → Bool
  | .page _ true => true
  | _ => false

/-! ## Channel status (src/app.py, `get_channel_basic` lines 755-784,
`compute_channel_status` lines 890-1069, routine handler lines 1356-1366)

`get_channel_basic` returns `None` when the channels request raises (modelled
by a `none` response) or returns no items; `compute_channel_status` then
reports no snapshot at all.  The remaining inputs of the aggregation (the
days since channel creation, playlists, and the two window pair sets) are
passed in directly. -/

structure ChannelBasic where
  title : Option String
  publishedAt : Option String
  subscriberCount : Nat
  videoCount : Nat
  viewCount : Nat
  uploadsPlaylistId : Option String
deriving DecidableEq

/-- Embedding of `get_channel_basic`: `none` models a raised request, and an
empty item list also yields `None` (lines 764-769). -/
def get_channel_basic (resp : Option (List ChannelBasic)) : Option ChannelBasic :=
  match resp with
  | none => none
  | some [] => none
  | some (b :: _) => some b

structure ChannelStatus where
  channelTitle : String
  subs : Nat
  vids : Nat
  views : Nat
  monthsActive : Option ℚ
  metrics : CumulativeMetrics
  playlistCount : Nat
  top5 : List Playlist
  win10 : WindowSummary
  win30 : WindowSummary
deriving DecidableEq

/-- Embedding of `compute_channel_status` (lines 890-1069): no basic info
means no snapshot; otherwise months active is `round(days/30, 2)` when the
creation timestamp parsed (`daysActive` is its day difference), and the
snapshot composes the cumulative metrics, top-5 playlists and both windows. -/
def compute_channel_status (resp : Option (List ChannelBasic)) (daysActive : Option ℤ)
    (playlists : List Playlist) (pairs10 pairs30 : List VidStat) : Option ChannelStatus :=
  match get_channel_basic resp with
  | none => none
  | some basic =>
    let ma : Option ℚ := daysActive.map (fun d => pyRound ((d : ℚ) / 30) 2)
    some
      { channelTitle := basic.title.getD ""
        subs := basic.subscriberCount
        vids := basic.videoCount
        views := basic.viewCount
        monthsActive := ma
        metrics := computeCumulativeMetrics basic.subscriberCount basic.videoCount
          basic.viewCount playlists.length ma
        playlistCount := playlists.length
        top5 := top5Playlists playlists
        win10 := windowAgg pairs10 basic.subscriberCount
        win30 := windowAgg pairs30 basic.subscriberCount }

/-- One step of the routine handler's status loop (lines 1358-1363): a
computed status appends a row, a missing one appends the channel id to the
reported failure list. -/
def routineStatusStep (acc : List ChannelStatus × List String)
    (entry : String × Option ChannelStatus) : List ChannelStatus × List String :=
  match entry.2 with
  | some s => (acc.1 ++ [s], acc.2)
  | none => (acc.1, acc.2 ++ [entry.1])

/-- The routine handler's status loop over all configured channels. -/
def routineStatusRun (channels : List (String × Option ChannelStatus)) :
    List ChannelStatus × List String :=
  channels.foldl routineStatusStep ([], [])

/-! ## Quota accounting (src/app.py, `QUOTA_UNITS` lines 96-102,
`ensure_quota_state` / `add_quota_usage` / `reset_quota_usage` lines 109-123)

The session dict is an association list preserving insertion order; the
session state is `Option QuotaUsage`, `none` before `ensure_quota_state`
first initialises it. -/

structure QuotaUsage where
  total : Int
  byEndpoint : List (String × Int)
deriving DecidableEq

/-- Association-list read with default 0, as `dict.get(k, 0)`. -/
def assocGet : List (String × Int) → String → Int
  | [], _ => 0
  | (k2, v2) :: rest, k => if k2 = k then v2 else assocGet rest k

/-- Association-list write, updating in place or appending a new key at the
end, as assignment into a Python dict. -/
def assocSet : List (String × Int) → String → Int → List (String × Int)
  | [], k, v => [(k, v)]
  | (k2, v2) :: rest, k, v =>
    if k2 = k then (k, v) :: rest else (k2, v2) :: assocSet rest k v

/-- The `QUOTA_UNITS` table (lines 96-102). -/
def QUOTA_UNITS : List (String × Int) :=
  [("channels.list", 1), ("playlistItems.list", 1), ("videos.list", 1),
    ("search.list", 100), ("playlists.list", 1)]

/-- `QUOTA_UNITS.get(endpoint, 0)`. -/
def quotaUnitsFor (endpoint : String) : Int := assocGet QUOTA_UNITS endpoint

/-- `ensure_quota_state` (lines 109-112): initialise the counter on first
use, otherwise return it unchanged. -/
def ensure_quota_state (st : Option QuotaUsage) : QuotaUsage :=
  match st with
  | none => { total := 0, byEndpoint := [] }
  | some u => u

/-- `add_quota_usage` (lines 115-119): an unknown endpoint contributes
`0 * count` units to the total and to its (possibly newly created) entry. -/
def add_quota_usage (st : Option QuotaUsage) (endpoint : String) (count : Int) : QuotaUsage :=
  { total := (ensure_quota_state st).total + quotaUnitsFor endpoint * count
    byEndpoint := assocSet (ensure_quota_state st).byEndpoint endpoint
      (assocGet (ensure_quota_state st).byEndpoint endpoint + quotaUnitsFor endpoint * count) }

/-- `reset_quota_usage` (lines 122-123). -/
def reset_quota_usage : QuotaUsage := { total := 0, byEndpoint := [] }

/-- The quota operations a session can perform. -/
inductive QuotaOp where
  | ensure : QuotaOp
  | add : String → Int → QuotaOp
  | reset : QuotaOp

/-- Apply one quota operation to the session state. -/
def applyQuotaOp (st : Option QuotaUsage) : QuotaOp → Option QuotaUsage
  | .ensure => some (ensure_quota_state st)
  | .add e c => some (add_quota_usage st e c)
  | .reset => some reset_quota_usage

/-- Run a sequence of quota operations from the initial (uninitialised)
session state. -/
def runQuotaOps (ops : List QuotaOp) : Option QuotaUsage :=
  ops.foldl applyQuotaOp none

/-- Sum of the per-endpoint usage values. -/
def sumQuota : List (String × Int) → Int
  | [] => 0
  | (_, v) :: rest => v + sumQuota rest

/-! ## Helper lemmas -/

/-- `quotaInv` is the claimed invariant of the quota counter. -/
def quotaInv (u : QuotaUsage) : Prop := u.total = sumQuota u.byEndpoint

theorem sumQuota_assocSet (l : List (String × Int)) (k : String) (v : Int) :
    sumQuota (assocSet l k v) = sumQuota l - assocGet l k + v := by
  induction l with
  | nil => simp [assocSet, assocGet, sumQuota]
  | cons p rest ih =>
    obtain ⟨k2, v2⟩ := p
    by_cases hk : k2 = k <;> simp [assocSet, assocGet, hk, sumQuota, ih] <;> ring

theorem assocGet_eq_zero_of_not_mem (l : List (String × Int)) (k : String)
    (h : k ∉ l.map Prod.fst) : assocGet l k = 0 := by
  induction l with
  | nil => rfl
  | cons p rest ih =>
    obtain ⟨k2, v2⟩ := p
    simp only [List.map_cons, List.mem_cons] at h
    push_neg at h
    have hne : k2 ≠ k := fun hk2 => h.1 hk2.symm
    simp [assocGet, hne, ih h.2]

theorem quotaInv_add (st : Option QuotaUsage) (hst : ∀ u, st = some u → quotaInv u)
    (e : String) (c : Int) : quotaInv (add_quota_usage st e c) := by
  have hbase : quotaInv (ensure_quota_state st) := by
    cases st with
    | none => simp [ensure_quota_state, quotaInv, sumQuota]
    | some u => exact hst u rfl
  simp only [quotaInv, add_quota_usage, sumQuota_assocSet]
  rw [hbase.symm]
  ring

theorem runQuotaOps_inv (ops : List QuotaOp) :
    ∀ st, (∀ u, st = some u → quotaInv u) →
      ∀ u, List.foldl applyQuotaOp st ops = some u → quotaInv u := by
  induction ops with
  | nil =>
    intro st hst u hu
    exact hst u hu
  | cons op rest ih =>
    intro st hst u hu
    simp only [List.foldl_cons] at hu
    refine ih (applyQuotaOp st op) ?_ u hu
    intro w hw
    cases op with
    | ensure =>
      simp only [applyQuotaOp, Option.some.injEq] at hw
      subst hw
      cases st with
      | none => simp [ensure_quota_state, quotaInv, sumQuota]
      | some v => exact hst v rfl
    | add e c =>
      simp only [applyQuotaOp, Option.some.injEq] at hw
      subst hw
      exact quotaInv_add st hst e c
    | reset =>
      simp only [applyQuotaOp, Option.some.injEq] at hw
      subst hw
      simp [reset_quota_usage, quotaInv, sumQuota]

theorem routineFold_acc (l : List (String × Option ChannelStatus))
    (a : List ChannelStatus × List String) :
    List.foldl routineStatusStep a l =
      (a.1 ++ (List.foldl routineStatusStep ([], []) l).1,
        a.2 ++ (List.foldl routineStatusStep ([], []) l).2) := by
  induction l generalizing a with
  | nil => simp
  | cons e rest ih =>
    obtain ⟨cid, st⟩ := e
    cases st with
    | none =>
      rw [List.foldl_cons, List.foldl_cons, ih, ih (routineStatusStep ([], []) (cid, none))]
      simp [routineStatusStep]
    | some s =>
      rw [List.foldl_cons, List.foldl_cons, ih, ih (routineStatusStep ([], []) (cid, some s))]
      simp [routineStatusStep]

/-! ## Claims about the record-row classifier -/

/-- Claim C1 (amended): the record-row classifier assigns category `live`
exactly when the item's `liveStreamingDetails` dict is non-empty — the code
never inspects the start/end timestamps, and this rule takes precedence over
the duration-based `short`/`video` split. -/
theorem c1_live_iff_details_nonempty (it : RawVideoItem) :
    recordVtype it = "live" ↔ it.liveStreamingDetails ≠ [] := by
  by_cases h : it.liveStreamingDetails = []
  · have hv : recordVtype it = if recordDurationSec it ≤ 61 then "short" else "video" := by
      simp [recordVtype, h]
    rw [hv, h]
    split_ifs <;> decide
  · simp [recordVtype, h]

/-- A fetched, eligible item whose live-streaming details contain a start
but no end timestamp: the code classifies it `live`, refuting the claim that
category `live` requires both a start and an end timestamp. -/
def c1Item : RawVideoItem :=
  { id := some "vid00000001"
    title := some "t"
    publishedAt := some "2024-01-01T00:00:00Z"
    liveBroadcastContent := some "none"
    duration := some "PT2M0S"
    privacyStatus := some "public"
    uploadStatus := some "processed"
    viewCount := 0
    likeCount := 0
    commentCount := none
    liveStreamingDetails := [("actualStartTime", "2024-01-01T00:00:00Z")] }

/-- Claim C1 counterexample: `c1Item` passes the eligibility filter, its
live-broadcast details lack an end timestamp, and yet it is categorised
`live`. -/
theorem c1_counterexample :
    recordVtype c1Item = "live" ∧
    c1Item.liveStreamingDetails.lookup "actualEndTime" = none ∧
    isEligibleVideoItem c1Item = true := by
  decide

/-- Claim C2: for an item with no live-streaming details, the classifier
returns `short` exactly when the duration is at most 61 seconds and `video`
(the spec's `ordinary`) exactly when it is strictly above 61. -/
theorem c2_short_threshold (it : RawVideoItem) (h : it.liveStreamingDetails = []) :
    (recordVtype it = "short" ↔ recordDurationSec it ≤ 61) ∧
    (recordVtype it = "video" ↔ 61 < recordDurationSec it) := by
  by_cases hd : recordDurationSec it ≤ 61 <;>
    constructor <;> simp [recordVtype, h, hd] <;> omega

/-- A non-live item of 61 seconds (`PT1M1S`) classifies `short`; one of 62
seconds (`PT1M2S`) classifies `video`. -/
def shortBoundaryItem : RawVideoItem :=
  { id := some "v1"
    title := some "t"
    publishedAt := none
    liveBroadcastContent := some "none"
    duration := some "PT1M1S"
    privacyStatus := some "public"
    uploadStatus := some "processed"
    viewCount := 10
    likeCount := 1
    commentCount := none
    liveStreamingDetails := [] }

/-- The same item one second above the threshold. -/
def ordinaryBoundaryItem : RawVideoItem :=
  { shortBoundaryItem with duration := some "PT1M2S" }

/-- Claim C2 witness: the threshold boundary evaluated at 61 and 62
seconds. -/
theorem c2_short_threshold_witness :
    shortBoundaryItem.liveStreamingDetails = [] ∧
    ((recordVtype shortBoundaryItem = "short" ↔ recordDurationSec shortBoundaryItem ≤ 61) ∧
      (recordVtype shortBoundaryItem = "video" ↔ 61 < recordDurationSec shortBoundaryItem)) ∧
    recordVtype shortBoundaryItem = "short" ∧
    recordVtype ordinaryBoundaryItem = "video" :=
  ⟨rfl, c2_short_threshold shortBoundaryItem rfl, by decide, by decide⟩

/-! ## Claims about quota accounting and snapshot failure -/

/-- Claim C10: after any operation sequence from the initial session state
the quota total equals the sum of the per-endpoint values; an endpoint
outside `QUOTA_UNITS` contributes 0 units to the total and to the sum; and
`reset_quota_usage` restores total 0 with an empty per-endpoint map. -/
theorem c10_quota_invariant :
    (∀ (ops : List QuotaOp) (u : QuotaUsage), runQuotaOps ops = some u →
      u.total = sumQuota u.byEndpoint) ∧
    (∀ (st : Option QuotaUsage) (e : String) (c : Int), e ∉ QUOTA_UNITS.map Prod.fst →
      (add_quota_usage st e c).total = (ensure_quota_state st).total ∧
      sumQuota (add_quota_usage st e c).byEndpoint =
        sumQuota (ensure_quota_state st).byEndpoint) ∧
    reset_quota_usage.total = 0 ∧ reset_quota_usage.byEndpoint = [] := by
  refine ⟨?_, ?_, rfl, rfl⟩
  · intro ops u hu
    exact runQuotaOps_inv ops none (by simp) u hu
  · intro st e c he
    have hz : quotaUnitsFor e = 0 := assocGet_eq_zero_of_not_mem QUOTA_UNITS e he
    constructor
    · simp [add_quota_usage, hz]
    · simp [add_quota_usage, hz, sumQuota_assocSet]

/-- A concrete session state reached by four quota operations, one of them
for an endpoint outside `QUOTA_UNITS`. -/
def quotaDemoState : QuotaUsage :=
  { total := 101
    byEndpoint := [("search.list", 100), ("oauth2", 0), ("videos.list", 1)] }

/-- Claim C10 witness: a concrete run of the quota state machine. -/
theorem c10_quota_invariant_witness :
    runQuotaOps
        [QuotaOp.ensure, QuotaOp.add "search.list" 1, QuotaOp.add "oauth2" 2,
          QuotaOp.add "videos.list" 1] = some quotaDemoState ∧
    quotaDemoState.total = sumQuota quotaDemoState.byEndpoint ∧
    "oauth2" ∉ QUOTA_UNITS.map Prod.fst ∧
    ((add_quota_usage (some quotaDemoState) "oauth2" 3).total =
        (ensure_quota_state (some quotaDemoState)).total ∧
      sumQuota (add_quota_usage (some quotaDemoState) "oauth2" 3).byEndpoint =
        sumQuota (ensure_quota_state (some quotaDemoState)).byEndpoint) :=
  ⟨by decide,
    c10_quota_invariant.1
      [QuotaOp.ensure, QuotaOp.add "search.list" 1, QuotaOp.add "oauth2" 2,
        QuotaOp.add "videos.list" 1] quotaDemoState (by decide),
    by decide,
    c10_quota_invariant.2.1 (some quotaDemoState) "oauth2" 3 (by decide)⟩

/-- Claim C9: when the channel's basic info cannot be fetched (the request
raised, or the response carried no items), `compute_channel_status` returns
no snapshot at all, and the routine caller appends no row for that channel —
it records the channel id in the reported failure list and the other
channels' rows are exactly those of the run without it. -/
theorem c9_missing_snapshot :
    (∀ (daysActive : Option ℤ) (playlists : List Playlist) (pairs10 pairs30 : List VidStat),
      compute_channel_status none daysActive playlists pairs10 pairs30 = none) ∧
    (∀ (daysActive : Option ℤ) (playlists : List Playlist) (pairs10 pairs30 : List VidStat),
      compute_channel_status (some []) daysActive playlists pairs10 pairs30 = none) ∧
    (∀ (pre post : List (String × Option ChannelStatus)) (cid : String),
      (routineStatusRun (pre ++ (cid, none) :: post)).1 =
        (routineStatusRun (pre ++ post)).1 ∧
      cid ∈ (routineStatusRun (pre ++ (cid, none) :: post)).2) := by
  refine ⟨fun _ _ _ _ => rfl, fun _ _ _ _ => rfl, ?_⟩
  intro pre post cid
  unfold routineStatusRun
  rw [List.foldl_append, List.foldl_append, List.foldl_cons]
  have hstep :
      routineStatusStep (List.foldl routineStatusStep ([], []) pre) (cid, none) =
        ((List.foldl routineStatusStep ([], []) pre).1,
          (List.foldl routineStatusStep ([], []) pre).2 ++ [cid]) := rfl
  rw [hstep, routineFold_acc post ((List.foldl routineStatusStep ([], []) pre).1,
    (List.foldl routineStatusStep ([], []) pre).2 ++ [cid]),
    routineFold_acc post (List.foldl routineStatusStep ([], []) pre)]
  constructor
  · rfl
  · simp

/-! ## Claims about zero denominators and page failures -/

theorem pyRound_zero (n : Nat) : pyRound 0 n = 0 := by
  norm_num [pyRound, roundHalfEven]

/-- Claim C5: every guarded ratio of the snapshot evaluates to 0 when its
denominator is zero or undefined: the window aggregation of an empty pair
set yields all-zero fields with an empty top title, views-per-subscriber is
0 whenever the subscriber count is 0, and each cumulative ratio metric is 0
when its denominator (videos, subscribers, total views, or months active) is
zero or missing. -/
theorem c5_zero_denominators :
    (∀ subs : Nat,
      (windowAgg [] subs).totalViews = 0 ∧ (windowAgg [] subs).numVideos = 0 ∧
      (windowAgg [] subs).topTitle = "" ∧ (windowAgg [] subs).topViews = 0 ∧
      (windowAgg [] subs).topShare = 0 ∧ (windowAgg [] subs).avgViews = 0 ∧
      (windowAgg [] subs).viewsPerSub = 0) ∧
    (∀ pairs : List VidStat, (windowAgg pairs 0).viewsPerSub = 0) ∧
    (∀ (subs views plc : Nat) (ma : Option ℚ),
      (computeCumulativeMetrics subs 0 views plc ma).subsPerVideo = 0 ∧
      (computeCumulativeMetrics subs 0 views plc ma).viewsPerVideo = 0 ∧
      (computeCumulativeMetrics subs 0 views plc ma).playlistsPerVideo = 0) ∧
    (∀ (vids views plc : Nat) (ma : Option ℚ),
      (computeCumulativeMetrics 0 vids views plc ma).viewsPerSub = 0 ∧
      (computeCumulativeMetrics 0 vids views plc ma).videosPerSubscriber = 0) ∧
    (∀ (subs vids plc : Nat) (ma : Option ℚ),
      (computeCumulativeMetrics subs vids 0 plc ma).subsPerTotalView = 0) ∧
    (∀ subs vids views plc : Nat,
      (computeCumulativeMetrics subs vids views plc none).subsPerMonth = 0 ∧
      (computeCumulativeMetrics subs vids views plc none).videosPerMonth = 0 ∧
      (computeCumulativeMetrics subs vids views plc (some 0)).subsPerMonth = 0 ∧
      (computeCumulativeMetrics subs vids views plc (some 0)).videosPerMonth = 0) := by
  refine ⟨?_, ?_, ?_, ?_, ?_, ?_⟩
  · intro subs
    refine ⟨rfl, rfl, rfl, rfl, rfl, rfl, ?_⟩
    simp [windowAgg, maxByViews, pyRound_zero]
  · intro pairs
    cases h : maxByViews pairs <;> simp [windowAgg, h]
  · intro subs views plc ma
    refine ⟨by simp [computeCumulativeMetrics], by simp [computeCumulativeMetrics],
      by simp [computeCumulativeMetrics]⟩
  · intro vids views plc ma
    refine ⟨by simp [computeCumulativeMetrics], by simp [computeCumulativeMetrics]⟩
  · intro subs vids plc ma
    simp [computeCumulativeMetrics]
  · intro subs vids views plc
    refine ⟨rfl, rfl, by simp [computeCumulativeMetrics], by simp [computeCumulativeMetrics]⟩

theorem collectSearchPages_good (rest : List PageResult) :
    ∀ (gs : List PageResult) (acc : List String), (∀ p ∈ gs, isOkNextPage p = true) →
      collectSearchPages (gs ++ PageResult.fail :: rest) acc = (acc ++ pagesItems gs, true) := by
  intro gs
  induction gs with
  | nil =>
    intro acc _
    simp [collectSearchPages, pagesItems]
  | cons p gs ih =>
    intro acc hok
    have hp := hok p (by simp)
    cases p with
    | fail => simp [isOkNextPage] at hp
    | page ids next =>
      cases next with
      | false => simp [isOkNextPage] at hp
      | true =>
        have hrec := ih (acc ++ truthyIds ids) (fun q hq => hok q (by simp [hq]))
        simp [collectSearchPages, pagesItems, hrec]

theorem collectUploadPages_good (rest : List PageResult) (maxR : Nat) :
    ∀ (gs : List PageResult) (acc : List String), (∀ p ∈ gs, isOkNextPage p = true) →
      acc.length + (pagesItems gs).length < maxR →
      collectUploadPages (gs ++ PageResult.fail :: rest) maxR acc = ([], true) := by
  intro gs
  induction gs with
  | nil =>
    intro acc _ hlen
    have hnot : ¬ maxR ≤ acc.length := by
      simp [pagesItems] at hlen
      omega
    simp [collectUploadPages, hnot]
  | cons p gs ih =>
    intro acc hok hlen
    have hp := hok p (by simp)
    cases p with
    | fail => simp [isOkNextPage] at hp
    | page ids next =>
      cases next with
      | false => simp [isOkNextPage] at hp
      | true =>
        have hnot : ¬ maxR ≤ acc.length := by
          simp [pagesItems] at hlen
          omega
        have hrec := ih (acc ++ truthyIds ids) (fun q hq => hok q (by simp [hq])) (by
          simp [pagesItems] at hlen ⊢
          omega)
        simp [collectUploadPages, hnot, hrec]

/-- Claim C8 (amended): when a page request fails after a run of successful
pages (and, for the upload query, before the target count is reached), the
failure is reported (warning flag) and the query is not retried — but only
the published-after search returns what was already accumulated; the
channel-upload collection discards its accumulated ids and returns the empty
list. Other queries are separate function calls and proceed regardless. -/
theorem c8_page_failure (gs rest : List PageResult) (maxResults : Nat)
    (hok : ∀ p ∈ gs, isOkNextPage p = true)
    (hlen : (pagesItems gs).length < maxResults) :
    collectSearchPages (gs ++ PageResult.fail :: rest) [] = (pagesItems gs, true) ∧
    collectUploadPages (gs ++ PageResult.fail :: rest) maxResults [] = ([], true) := by
  constructor
  · simpa using collectSearchPages_good rest gs [] hok
  · exact collectUploadPages_good rest maxResults gs [] hok (by simpa using hlen)

/-- Claim C8 witness: one successful page with a continuation token followed
by a failing request. -/
theorem c8_page_failure_witness :
    (∀ p ∈ [PageResult.page [some "v1"] true], isOkNextPage p = true) ∧
    (pagesItems [PageResult.page [some "v1"] true]).length < 50 ∧
    (collectSearchPages ([PageResult.page [some "v1"] true] ++ PageResult.fail :: []) [] =
        (pagesItems [PageResult.page [some "v1"] true], true) ∧
      collectUploadPages ([PageResult.page [some "v1"] true] ++ PageResult.fail :: []) 50 [] =
        ([], true)) :=
  ⟨by decide, by decide,
    c8_page_failure [PageResult.page [some "v1"] true] [] 50 (by decide) (by decide)⟩

/-- Claim C8 counterexample: after accumulating `v1` the next page request
fails; the upload collection returns the empty list, not the accumulated
`[v1]` that the claim promises (the search query does return it). -/
theorem c8_counterexample :
    collectUploadPages [PageResult.page [some "v1"] true, PageResult.fail] 50 [] = ([], true) ∧
    collectSearchPages [PageResult.page [some "v1"] true, PageResult.fail] [] = (["v1"], true) ∧
    (["v1"] : List String) ≠ [] := by
  decide

/-! ## Claim about the eligibility filter -/

/-- Claim C7: an item that is not public, not fully processed, or whose
live-broadcast indicator is `live` or `upcoming` is excluded from the
channel-upload collection and from the single-video fetch, regardless of its
other fields. -/
theorem c7_ineligible_excluded (it : RawVideoItem)
    (h : it.privacyStatus ≠ some "public" ∨ it.uploadStatus ≠ some "processed" ∨
      it.liveBroadcastContent = some "live" ∨ it.liveBroadcastContent = some "upcoming") :
    (∀ (items : List RawVideoItem) (maxResults : Nat),
      it ∉ fetch_channel_upload_filter items maxResults) ∧
    (∀ resp : List RawVideoItem, fetch_single_video_filter resp ≠ some it) := by
  have hchar : isEligibleVideoItem it = true ↔
      (it.privacyStatus = some "public" ∧ it.uploadStatus = some "processed" ∧
        ¬(it.liveBroadcastContent = some "live" ∨ it.liveBroadcastContent = some "upcoming")) := by
    simp [isEligibleVideoItem, and_assoc]
  have hf : ¬ isEligibleVideoItem it = true := by
    rw [hchar]
    tauto
  constructor
  · intro items maxResults hmem
    have h1 : it ∈ List.insertionSort (fun a b => pubKey a ≤ pubKey b)
        (items.filter isEligibleVideoItem) := List.mem_of_mem_take hmem
    have h2 : it ∈ items.filter isEligibleVideoItem :=
      (List.mem_insertionSort (fun a b => pubKey a ≤ pubKey b)).mp h1
    exact hf (List.mem_filter.mp h2).2
  · intro resp heq
    cases resp with
    | nil => simp [fetch_single_video_filter] at heq
    | cons a l =>
      by_cases ha : isEligibleVideoItem a = true
      · rw [fetch_single_video_filter] at heq
        simp [ha] at heq
        subst heq
        exact hf ha
      · rw [fetch_single_video_filter] at heq
        simp [ha] at heq

/-- A non-public item used to exercise the eligibility filter. -/
def privateItem : RawVideoItem :=
  { id := some "v2"
    title := some "t2"
    publishedAt := some "2024-02-02T00:00:00Z"
    liveBroadcastContent := some "none"
    duration := some "PT10M"
    privacyStatus := some "private"
    uploadStatus := some "processed"
    viewCount := 5
    likeCount := 0
    commentCount := some 1
    liveStreamingDetails := [] }

/-- Claim C7 witness: a private video is excluded from both collections. -/
theorem c7_ineligible_excluded_witness :
    (privateItem.privacyStatus ≠ some "public" ∨
      privateItem.uploadStatus ≠ some "processed" ∨
      privateItem.liveBroadcastContent = some "live" ∨
      privateItem.liveBroadcastContent = some "upcoming") ∧
    ((∀ (items : List RawVideoItem) (maxResults : Nat),
        privateItem ∉ fetch_channel_upload_filter items maxResults) ∧
      (∀ resp : List RawVideoItem, fetch_single_video_filter resp ≠ some privateItem)) :=
  ⟨by decide, c7_ineligible_excluded privateItem (by decide)⟩

/-! ## Claim about the top-5 playlists -/

instance : IsTotal Playlist (fun a b => b.itemCount ≤ a.itemCount) :=
  ⟨fun a b => Nat.le_total b.itemCount a.itemCount⟩

instance : IsTrans Playlist (fun a b => b.itemCount ≤ a.itemCount) :=
  ⟨fun _ _ _ hab hbc => le_trans hbc hab⟩

theorem filter_orderedInsert_count (x : Playlist) (l : List Playlist) (c : Nat) :
    (List.orderedInsert (fun a b => b.itemCount ≤ a.itemCount) x l).filter
        (fun p => p.itemCount == c) =
      if x.itemCount = c then x :: l.filter (fun p => p.itemCount == c)
      else l.filter (fun p => p.itemCount == c) := by
  rw [List.orderedInsert_eq_take_drop, List.filter_append]
  by_cases hx : x.itemCount = c
  · have htake :
        (l.takeWhile fun b => decide ¬(b.itemCount ≤ x.itemCount)).filter
          (fun p => p.itemCount == c) = [] := by
      rw [List.filter_eq_nil_iff]
      intro b hb
      have hbw := List.mem_takeWhile_imp hb
      simp only [decide_not, Bool.not_eq_true', decide_eq_false_iff_not, not_le,
        decide_eq_true_eq] at hbw
      simp only [beq_iff_eq]
      omega
    have hl : l.filter (fun p => p.itemCount == c) =
        (l.dropWhile fun b => decide ¬(b.itemCount ≤ x.itemCount)).filter
          (fun p => p.itemCount == c) := by
      conv_lhs => rw [← List.takeWhile_append_dropWhile
        (p := fun b => decide ¬(b.itemCount ≤ x.itemCount)) (l := l)]
      rw [List.filter_append, htake, List.nil_append]
    rw [htake, List.filter_cons, if_pos hx]
    simp [hx, hl]
  · rw [if_neg hx, List.filter_cons]
    have hxf : (x.itemCount == c) = false := by
      simp [hx]
    rw [hxf]
    conv_rhs => rw [← List.takeWhile_append_dropWhile
      (p := fun b => decide ¬(b.itemCount ≤ x.itemCount)) (l := l)]
    rw [List.filter_append]
    simp

theorem filter_sortPlaylists (l : List Playlist) (c : Nat) :
    (sortPlaylists l).filter (fun p => p.itemCount == c) =
      l.filter (fun p => p.itemCount == c) := by
  unfold sortPlaylists
  induction l with
  | nil => rfl
  | cons x l ih =>
    rw [List.insertionSort, filter_orderedInsert_count, List.filter_cons]
    by_cases hx : x.itemCount = c
    · simp [hx, ih]
    · simp [hx, ih]

/-- Claim C6 (amended): the snapshot's playlist block has exactly 5 slots;
it is the 5-slot truncation of a stable descending ranking of the playlists
by item count (a permutation, sorted with ties in encounter order), padded
with placeholder entries whose title is the dash `"-"` (not the empty
string) and whose count is 0. -/
theorem c6_top5_playlists (pls : List Playlist) :
    (top5Playlists pls).length = 5 ∧
    List.Perm (sortPlaylists pls) pls ∧
    List.Sorted (fun a b => b.itemCount ≤ a.itemCount) (sortPlaylists pls) ∧
    (∀ c : Nat, (sortPlaylists pls).filter (fun p => p.itemCount == c) =
      pls.filter (fun p => p.itemCount == c)) ∧
    top5Playlists pls =
      (sortPlaylists pls).take 5 ++ List.replicate (5 - pls.length) placeholderPlaylist := by
  have hlen : (sortPlaylists pls).length = pls.length := by
    unfold sortPlaylists
    exact List.length_insertionSort _ pls
  refine ⟨?_, List.perm_insertionSort _ pls, List.sorted_insertionSort _ pls,
    filter_sortPlaylists pls, ?_⟩
  · simp only [top5Playlists, List.length_append, List.length_replicate, List.length_take]
    omega
  · unfold top5Playlists
    congr 1
    rw [List.length_take, hlen]
    congr 1
    omega

/-- Claim C6 counterexample: with 2 real playlists the last 3 slots carry
the dash title `"-"`, not the empty title the claim promises. -/
theorem c6_counterexample :
    (top5Playlists [⟨"P1", 3⟩, ⟨"P2", 7⟩]).map Playlist.title = ["P2", "P1", "-", "-", "-"] ∧
    (top5Playlists [⟨"P1", 3⟩, ⟨"P2", 7⟩]).map Playlist.title ≠ ["P2", "P1", "", "", ""] := by
  decide

/-! ## Claim about the window aggregation -/

theorem maxByViews_eq_none_iff (l : List VidStat) : maxByViews l = none ↔ l = [] := by
  cases l with
  | nil => simp [maxByViews]
  | cons p ps => cases h : maxByViews ps <;> simp [maxByViews, h]

theorem maxByViews_views (l : List VidStat) (q : VidStat) (h : maxByViews l = some q) :
    q.viewCount = maxViewCount l := by
  induction l generalizing q with
  | nil => simp [maxByViews] at h
  | cons p ps ih =>
    cases hps : maxByViews ps with
    | none =>
      have hnil : ps = [] := (maxByViews_eq_none_iff ps).mp hps
      subst hnil
      simp [maxByViews] at h
      subst h
      simp [maxViewCount]
    | some r =>
      have hr := ih r hps
      simp only [maxByViews, hps] at h
      by_cases hlt : p.viewCount < r.viewCount
      · rw [if_pos hlt] at h
        injection h with h2
        subst h2
        simp only [maxViewCount, List.map_cons, List.foldr_cons]
        rw [show (ps.map VidStat.viewCount).foldr max 0 = maxViewCount ps from rfl, ← hr]
        omega
      · rw [if_neg hlt] at h
        injection h with h2
        subst h2
        simp only [maxViewCount, List.map_cons, List.foldr_cons]
        rw [show (ps.map VidStat.viewCount).foldr max 0 = maxViewCount ps from rfl, ← hr]
        omega

theorem maxByViews_find (l : List VidStat) (q : VidStat) (h : maxByViews l = some q) :
    List.find? (fun p => p.viewCount == maxViewCount l) l = some q := by
  induction l generalizing q with
  | nil => simp [maxByViews] at h
  | cons p ps ih =>
    have hq := maxByViews_views (p :: ps) q h
    cases hps : maxByViews ps with
    | none =>
      have hnil : ps = [] := (maxByViews_eq_none_iff ps).mp hps
      subst hnil
      simp [maxByViews] at h
      subst h
      simp [List.find?, maxViewCount]
    | some r =>
      have hr := maxByViews_views ps r hps
      simp only [maxByViews, hps] at h
      by_cases hlt : p.viewCount < r.viewCount
      · rw [if_pos hlt] at h
        injection h with h2
        subst h2
        have hmax : maxViewCount (p :: ps) = maxViewCount ps := by
          simp only [maxViewCount, List.map_cons, List.foldr_cons]
          rw [show (ps.map VidStat.viewCount).foldr max 0 = maxViewCount ps from rfl]
          omega
        rw [List.find?]
        have hpne : (p.viewCount == maxViewCount (p :: ps)) = false := by
          rw [hmax, ← hr]
          simp
          omega
        rw [hpne]
        rw [hmax]
        exact ih r hps
      · rw [if_neg hlt] at h
        injection h with h2
        subst h2
        rw [List.find?]
        have hpe : (p.viewCount == maxViewCount (p :: ps)) = true := by
          simp [hq]
        rw [hpe]

/-- Claim C4 (amended): for every nonempty pair set, the window block
computes total = sum of view counts, count = number of pairs, top video =
the first pair attaining the maximal view count (ties broken by encounter
order), reported with its title newline-collapsed and stripped; top-share is
top ÷ total rounded to 4 decimal places (when total > 0), average views is
total ÷ count rounded to 2 places, and views-per-subscriber is total ÷
subscribers rounded to 5 places (when subscribers > 0). -/
theorem c4_window_aggregation (pairs : List VidStat) (subs : Nat) (hne : pairs ≠ []) :
    ∃ top, maxByViews pairs = some top ∧
      List.find? (fun p => p.viewCount == maxViewCount pairs) pairs = some top ∧
      (windowAgg pairs subs).totalViews = (pairs.map VidStat.viewCount).sum ∧
      (windowAgg pairs subs).numVideos = pairs.length ∧
      (windowAgg pairs subs).topTitle = normTitle top.title ∧
      (windowAgg pairs subs).topViews = top.viewCount ∧
      (0 < (pairs.map VidStat.viewCount).sum →
        (windowAgg pairs subs).topShare =
          pyRound ((top.viewCount : ℚ) / ((pairs.map VidStat.viewCount).sum : ℚ)) 4) ∧
      (windowAgg pairs subs).avgViews =
        pyRound (((pairs.map VidStat.viewCount).sum : ℚ) / (pairs.length : ℚ)) 2 ∧
      (0 < subs → (windowAgg pairs subs).viewsPerSub =
        pyRound (((pairs.map VidStat.viewCount).sum : ℚ) / (subs : ℚ)) 5) := by
  cases h : maxByViews pairs with
  | none => exact absurd ((maxByViews_eq_none_iff pairs).mp h) hne
  | some top =>
    have hlen : 0 < pairs.length := List.length_pos.mpr hne
    refine ⟨top, rfl, maxByViews_find pairs top h, ?_, ?_, ?_, ?_, ?_, ?_, ?_⟩
    · simp [windowAgg, h]
    · simp [windowAgg, h]
    · simp [windowAgg, h]
    · simp [windowAgg, h]
    · intro ht
      simp [windowAgg, h, ht]
    · simp [windowAgg, h, hlen]
    · intro hs
      simp [windowAgg, h, hs]

/-- The claim's example window: pairs A=100 and B=300 with 1000
subscribers. -/
def demoPairs : List VidStat := [⟨"A", 100⟩, ⟨"B", 300⟩]

example : (windowAgg demoPairs 1000).totalViews = 400 := by decide
example : (windowAgg demoPairs 1000).numVideos = 2 := by decide
example : (windowAgg demoPairs 1000).topTitle = "B" := by decide
example : (windowAgg demoPairs 1000).topViews = 300 := by decide
example : (windowAgg demoPairs 1000).topShare = 3/4 := by
  norm_num [windowAgg, demoPairs, maxByViews, pyRound, roundHalfEven]
example : (windowAgg demoPairs 1000).avgViews = 200 := by
  norm_num [windowAgg, demoPairs, maxByViews, pyRound, roundHalfEven]
example : (windowAgg demoPairs 1000).viewsPerSub = 2/5 := by
  norm_num [windowAgg, demoPairs, maxByViews, pyRound, roundHalfEven]

/-- Claim C4 witness: the window aggregation of the claim's example pair
set. -/
theorem c4_window_aggregation_witness :
    demoPairs ≠ [] ∧
    (∃ top, maxByViews demoPairs = some top ∧
      List.find? (fun p => p.viewCount == maxViewCount demoPairs) demoPairs = some top ∧
      (windowAgg demoPairs 1000).totalViews = (demoPairs.map VidStat.viewCount).sum ∧
      (windowAgg demoPairs 1000).numVideos = demoPairs.length ∧
      (windowAgg demoPairs 1000).topTitle = normTitle top.title ∧
      (windowAgg demoPairs 1000).topViews = top.viewCount ∧
      (0 < (demoPairs.map VidStat.viewCount).sum →
        (windowAgg demoPairs 1000).topShare =
          pyRound ((top.viewCount : ℚ) / ((demoPairs.map VidStat.viewCount).sum : ℚ)) 4) ∧
      (windowAgg demoPairs 1000).avgViews =
        pyRound (((demoPairs.map VidStat.viewCount).sum : ℚ) / (demoPairs.length : ℚ)) 2 ∧
      (0 < (1000 : Nat) → (windowAgg demoPairs 1000).viewsPerSub =
        pyRound (((demoPairs.map VidStat.viewCount).sum : ℚ) / ((1000 : Nat) : ℚ)) 5)) :=
  ⟨by decide, c4_window_aggregation demoPairs 1000 (by decide)⟩

/-- Claim C4 counterexample: with pairs A=1 and B=2 the code's top-share is
`round(2/3, 4) = 0.6667`, not the exact quotient 2/3 the claim states. -/
theorem c4_counterexample :
    (windowAgg [⟨"A", 1⟩, ⟨"B", 2⟩] 1000).topShare = 6667/10000 ∧
    (6667/10000 : ℚ) ≠ 2/3 ∧
    (windowAgg [⟨"A", 1⟩, ⟨"B", 2⟩] 1000).topViews = 2 ∧
    (windowAgg [⟨"A", 1⟩, ⟨"B", 2⟩] 1000).totalViews = 3 := by
  refine ⟨?_, by norm_num, by decide, by decide⟩
  norm_num [windowAgg, maxByViews, pyRound, roundHalfEven]

/-! ## Claim about the duration parser -/

theorem spanDigits_append_decomp (cs : List Char) :
    (spanDigits cs).1 ++ (spanDigits cs).2 = cs := by
  induction cs with
  | nil => rfl
  | cons c rest ih =>
    by_cases hc : isPyDigit c
    · simp [spanDigits, hc, ih]
    · simp [spanDigits, hc]

theorem spanDigits_fst_digits (cs : List Char) :
    ∀ c ∈ (spanDigits cs).1, isPyDigit c = true := by
  induction cs with
  | nil => simp [spanDigits]
  | cons c rest ih =>
    by_cases hc : isPyDigit c
    · intro x hx
      simp only [spanDigits, hc, if_true] at hx
      rcases List.mem_cons.mp hx with he | hm
      · rw [he]; exact hc
      · exact ih x hm
    · intro x hx
      simp [spanDigits, hc] at hx

theorem spanDigits_append_eq (ds rest : List Char) (hds : ∀ c ∈ ds, isPyDigit c = true)
    (hrest : ∀ c t, rest = c :: t → isPyDigit c = false) :
    spanDigits (ds ++ rest) = (ds, rest) := by
  induction ds with
  | nil =>
    cases rest with
    | nil => rfl
    | cons c t => simp [spanDigits, hrest c t rfl]
  | cons d ds ih =>
    have hd := hds d (by simp)
    have ih2 := ih (fun c hc => hds c (by simp [hc]))
    simp [spanDigits, hd, ih2]

theorem getLast?_append_right (l1 l2 : List Char) (h : l2 ≠ []) :
    (l1 ++ l2).getLast? = l2.getLast? := by
  rw [List.getLast?_append]
  cases hl : l2.getLast? with
  | none => exact absurd (List.getLast?_eq_none_iff.mp hl) h
  | some a => rfl

theorem optGroup_some_ne_nil (ds : List Char) (u : Char) : optGroup (some ds) u ≠ [] := by
  simp [optGroup]

theorem optGroup_none (u : Char) : optGroup none u = [] := rfl

theorem optGroup_some (ds : List Char) (u : Char) : optGroup (some ds) u = ds ++ [u] := rfl

theorem renderGroups_getLast_ne (hd md sd : Option (List Char)) :
    (renderGroups hd md sd).getLast? ≠ some '\n' := by
  unfold renderGroups
  cases sd with
  | some ds =>
    rw [getLast?_append_right _ _ (optGroup_some_ne_nil ds 'S')]
    simp [optGroup_some, List.getLast?_concat]
  | none =>
    simp only [optGroup_none, List.append_nil]
    cases md with
    | some dm =>
      rw [getLast?_append_right _ _ (optGroup_some_ne_nil dm 'M')]
      simp [optGroup_some, List.getLast?_concat]
    | none =>
      simp only [optGroup_none, List.append_nil]
      cases hd with
      | some dh => simp [optGroup_some, List.getLast?_concat]
      | none => simp [optGroup_none]

theorem dropTrailingNewline_concat (l : List Char) :
    dropTrailingNewline (l ++ ['\n']) = l := by
  simp [dropTrailingNewline, List.getLast?_concat]

theorem dropTrailingNewline_of_ne (l : List Char) (h : l.getLast? ≠ some '\n') :
    dropTrailingNewline l = l := by
  simp [dropTrailingNewline, h]

theorem dropTrailingNewline_cases (l : List Char) :
    l = dropTrailingNewline l ∨ l = dropTrailingNewline l ++ ['\n'] := by
  by_cases h : l.getLast? = some '\n'
  · right
    rw [dropTrailingNewline, if_pos h]
    have hne : l ≠ [] := by
      intro e
      rw [e] at h
      simp at h
    have h2 := List.dropLast_append_getLast hne
    rw [List.getLast?_eq_getLast l hne] at h
    injection h with h3
    rw [h3] at h2
    exact h2.symm
  · left
    rw [dropTrailingNewline, if_neg h]

theorem parseSGroup_sound (sd : Option (List Char))
    (hv : ∀ ds, sd = some ds → isDigits ds) :
    parseSGroup (optGroup sd 'S') = some (groupVal sd) := by
  cases sd with
  | none => rfl
  | some ds =>
    obtain ⟨hne, hdig⟩ := hv ds rfl
    have hspan : spanDigits (ds ++ ['S']) = (ds, ['S']) :=
      spanDigits_append_eq ds ['S'] hdig
        (fun c t h => by injection h with h1 _; rw [← h1]; decide)
    rw [optGroup_some]
    simp [parseSGroup, hspan, hne, groupVal]

theorem parseMSGroup_sound (md sd : Option (List Char))
    (hm : ∀ ds, md = some ds → isDigits ds) (hs : ∀ ds, sd = some ds → isDigits ds) :
    parseMSGroup (optGroup md 'M' ++ optGroup sd 'S') =
      some (groupVal md * 60 + groupVal sd) := by
  cases md with
  | none =>
    simp only [optGroup_none, List.nil_append]
    cases sd with
    | none => simp [parseMSGroup, optGroup_none, groupVal]
    | some ds =>
      obtain ⟨hne, hdig⟩ := hs ds rfl
      have hspan : spanDigits (ds ++ ['S']) = (ds, ['S']) :=
        spanDigits_append_eq ds ['S'] hdig
          (fun c t h => by injection h with h1 _; rw [← h1]; decide)
      rw [optGroup_some]
      simp [parseMSGroup, hspan, hne, groupVal]
  | some dm =>
    obtain ⟨hnem, hdigm⟩ := hm dm rfl
    have heq : optGroup (some dm) 'M' ++ optGroup sd 'S' = dm ++ ('M' :: optGroup sd 'S') := by
      rw [optGroup_some]
      simp
    rw [heq]
    have hspan : spanDigits (dm ++ ('M' :: optGroup sd 'S')) =
        (dm, 'M' :: optGroup sd 'S') :=
      spanDigits_append_eq dm _ hdigm
        (fun c t h => by injection h with h1 _; rw [← h1]; decide)
    have hS := parseSGroup_sound sd hs
    simp [parseMSGroup, hspan, hnem, hS, groupVal]

theorem parseHMSGroup_sound (hd md sd : Option (List Char)) (hv : validGroups hd md sd) :
    parseHMSGroup (renderGroups hd md sd) =
      some (groupVal hd * 3600 + groupVal md * 60 + groupVal sd) := by
  obtain ⟨hh, hm, hs⟩ := hv
  cases hd with
  | some dh =>
    obtain ⟨hneh, hdigh⟩ := hh dh rfl
    have heq : renderGroups (some dh) md sd =
        dh ++ ('H' :: (optGroup md 'M' ++ optGroup sd 'S')) := by
      unfold renderGroups
      rw [optGroup_some]
      simp
    rw [heq]
    have hspan : spanDigits (dh ++ ('H' :: (optGroup md 'M' ++ optGroup sd 'S'))) =
        (dh, 'H' :: (optGroup md 'M' ++ optGroup sd 'S')) :=
      spanDigits_append_eq dh _ hdigh
        (fun c t h => by injection h with h1 _; rw [← h1]; decide)
    have hMS := parseMSGroup_sound md sd hm hs
    simp [parseHMSGroup, hspan, hneh, hMS, groupVal, Nat.add_assoc]
  | none =>
    have heq : renderGroups none md sd = optGroup md 'M' ++ optGroup sd 'S' := rfl
    rw [heq]
    cases md with
    | some dm =>
      obtain ⟨hnem, hdigm⟩ := hm dm rfl
      have heq2 : optGroup (some dm) 'M' ++ optGroup sd 'S' =
          dm ++ ('M' :: optGroup sd 'S') := by
        rw [optGroup_some]
        simp
      rw [heq2]
      have hspan : spanDigits (dm ++ ('M' :: optGroup sd 'S')) =
          (dm, 'M' :: optGroup sd 'S') :=
        spanDigits_append_eq dm _ hdigm
          (fun c t h => by injection h with h1 _; rw [← h1]; decide)
      have hS := parseSGroup_sound sd hs
      simp [parseHMSGroup, hspan, hnem, hS, groupVal]
    | none =>
      cases sd with
      | none => simp [parseHMSGroup, optGroup_none, groupVal]
      | some ds =>
        obtain ⟨hnes, hdigs⟩ := hs ds rfl
        have hspan : spanDigits (ds ++ ['S']) = (ds, ['S']) :=
          spanDigits_append_eq ds ['S'] hdigs
            (fun c t h => by injection h with h1 _; rw [← h1]; decide)
        rw [optGroup_none]
        simp only [List.nil_append]
        rw [optGroup_some]
        simp [parseHMSGroup, hspan, hnes, groupVal]

theorem parse_duration_sound (hd md sd : Option (List Char)) (hv : validGroups hd md sd) :
    parse_iso8601_duration (String.mk ('P' :: 'T' :: renderGroups hd md sd)) =
      groupVal hd * 3600 + groupVal md * 60 + groupVal sd ∧
    parse_iso8601_duration (String.mk ('P' :: 'T' :: (renderGroups hd md sd ++ ['\n']))) =
      groupVal hd * 3600 + groupVal md * 60 + groupVal sd := by
  have hval := parseHMSGroup_sound hd md sd hv
  constructor
  · show parseDurationChars ('P' :: 'T' :: renderGroups hd md sd) = _
    rw [parseDurationChars]
    rw [if_pos ⟨rfl, rfl⟩]
    rw [dropTrailingNewline_of_ne _ (renderGroups_getLast_ne hd md sd), hval]
    rfl
  · show parseDurationChars ('P' :: 'T' :: (renderGroups hd md sd ++ ['\n'])) = _
    rw [parseDurationChars]
    rw [if_pos ⟨rfl, rfl⟩]
    rw [dropTrailingNewline_concat, hval]
    rfl

theorem parseSGroup_complete (cs : List Char) (v : Nat) (h : parseSGroup cs = some v) :
    ∃ sd, (∀ ds, sd = some ds → isDigits ds) ∧ cs = optGroup sd 'S' ∧ v = groupVal sd := by
  by_cases hcs : cs = []
  · subst hcs
    refine ⟨none, by simp, rfl, ?_⟩
    have h2 : some 0 = some v := h
    injection h2 with h3
    rw [← h3]
    rfl
  · rw [parseSGroup, if_neg hcs] at h
    by_cases hd : (spanDigits cs).1 = []
    · rw [if_pos hd] at h
      exact absurd h (by simp)
    · rw [if_neg hd] at h
      cases hr : (spanDigits cs).2 with
      | nil =>
        rw [hr] at h
        simp at h
      | cons u r2 =>
        rw [hr] at h
        dsimp only at h
        by_cases hu : u = 'S' ∧ r2 = []
        · rw [if_pos hu] at h
          injection h with hv
          obtain ⟨huS, hr2⟩ := hu
          refine ⟨some (spanDigits cs).1, ?_, ?_, ?_⟩
          · intro ds hds
            injection hds with e
            subst e
            exact ⟨hd, spanDigits_fst_digits cs⟩
          · conv_lhs => rw [← spanDigits_append_decomp cs]
            rw [hr, huS, hr2, optGroup_some]
          · rw [← hv]
            rfl
        · rw [if_neg hu] at h
          simp at h

theorem parseMSGroup_complete (cs : List Char) (v : Nat) (h : parseMSGroup cs = some v) :
    ∃ md sd, (∀ ds, md = some ds → isDigits ds) ∧ (∀ ds, sd = some ds → isDigits ds) ∧
      cs = optGroup md 'M' ++ optGroup sd 'S' ∧ v = groupVal md * 60 + groupVal sd := by
  by_cases hcs : cs = []
  · subst hcs
    refine ⟨none, none, by simp, by simp, rfl, ?_⟩
    have h2 : some 0 = some v := h
    injection h2 with h3
    rw [← h3]
    rfl
  · rw [parseMSGroup, if_neg hcs] at h
    by_cases hd : (spanDigits cs).1 = []
    · rw [if_pos hd] at h
      exact absurd h (by simp)
    · rw [if_neg hd] at h
      cases hr : (spanDigits cs).2 with
      | nil =>
        rw [hr] at h
        simp at h
      | cons u r2 =>
        rw [hr] at h
        dsimp only at h
        by_cases hM : u = 'M'
        · rw [if_pos hM] at h
          obtain ⟨v2, hps, hv⟩ := Option.map_eq_some'.mp h
          obtain ⟨sd, hvs, hr2eq, hv2⟩ := parseSGroup_complete r2 v2 hps
          refine ⟨some (spanDigits cs).1, sd, ?_, hvs, ?_, ?_⟩
          · intro ds hds
            injection hds with e
            subst e
            exact ⟨hd, spanDigits_fst_digits cs⟩
          · conv_lhs => rw [← spanDigits_append_decomp cs]
            rw [hr, hM, hr2eq, optGroup_some]
            simp
          · rw [← hv, hv2]
            rfl
        · rw [if_neg hM] at h
          by_cases hS : u = 'S' ∧ r2 = []
          · rw [if_pos hS] at h
            injection h with hv
            obtain ⟨huS, hr2⟩ := hS
            refine ⟨none, some (spanDigits cs).1, by simp, ?_, ?_, ?_⟩
            · intro ds hds
              injection hds with e
              subst e
              exact ⟨hd, spanDigits_fst_digits cs⟩
            · conv_lhs => rw [← spanDigits_append_decomp cs]
              rw [hr, huS, hr2, optGroup_none, optGroup_some]
              simp
            · rw [← hv]
              simp [groupVal]
          · rw [if_neg hS] at h
            simp at h

theorem parseHMSGroup_complete (cs : List Char) (v : Nat) (h : parseHMSGroup cs = some v) :
    ∃ hd md sd, validGroups hd md sd ∧ cs = renderGroups hd md sd ∧
      v = groupVal hd * 3600 + groupVal md * 60 + groupVal sd := by
  by_cases hcs : cs = []
  · subst hcs
    refine ⟨none, none, none, ⟨by simp, by simp, by simp⟩, rfl, ?_⟩
    have h2 : some 0 = some v := h
    injection h2 with h3
    rw [← h3]
    rfl
  · rw [parseHMSGroup, if_neg hcs] at h
    by_cases hdnil : (spanDigits cs).1 = []
    · rw [if_pos hdnil] at h
      exact absurd h (by simp)
    · rw [if_neg hdnil] at h
      cases hr : (spanDigits cs).2 with
      | nil =>
        rw [hr] at h
        simp at h
      | cons u r2 =>
        rw [hr] at h
        dsimp only at h
        by_cases hH : u = 'H'
        · rw [if_pos hH] at h
          obtain ⟨v2, hps, hv⟩ := Option.map_eq_some'.mp h
          obtain ⟨md, sd, hvm, hvs, hr2eq, hv2⟩ := parseMSGroup_complete r2 v2 hps
          refine ⟨some (spanDigits cs).1, md, sd, ⟨?_, hvm, hvs⟩, ?_, ?_⟩
          · intro ds hds
            injection hds with e
            subst e
            exact ⟨hdnil, spanDigits_fst_digits cs⟩
          · conv_lhs => rw [← spanDigits_append_decomp cs]
            rw [hr, hH, hr2eq]
            unfold renderGroups
            rw [optGroup_some]
            simp
          · rw [← hv, hv2]
            simp [groupVal]
            ring
        · rw [if_neg hH] at h
          by_cases hM : u = 'M'
          · rw [if_pos hM] at h
            obtain ⟨v2, hps, hv⟩ := Option.map_eq_some'.mp h
            obtain ⟨sd, hvs, hr2eq, hv2⟩ := parseSGroup_complete r2 v2 hps
            refine ⟨none, some (spanDigits cs).1, sd, ⟨by simp, ?_, hvs⟩, ?_, ?_⟩
            · intro ds hds
              injection hds with e
              subst e
              exact ⟨hdnil, spanDigits_fst_digits cs⟩
            · conv_lhs => rw [← spanDigits_append_decomp cs]
              rw [hr, hM, hr2eq]
              unfold renderGroups
              rw [optGroup_none, optGroup_some]
              simp
            · rw [← hv, hv2]
              simp [groupVal]
          · rw [if_neg hM] at h
            by_cases hS : u = 'S' ∧ r2 = []
            · rw [if_pos hS] at h
              injection h with hv
              obtain ⟨huS, hr2⟩ := hS
              refine ⟨none, none, some (spanDigits cs).1, ⟨by simp, by simp, ?_⟩, ?_, ?_⟩
              · intro ds hds
                injection hds with e
                subst e
                exact ⟨hdnil, spanDigits_fst_digits cs⟩
              · conv_lhs => rw [← spanDigits_append_decomp cs]
                rw [hr, huS, hr2]
                unfold renderGroups
                rw [optGroup_none, optGroup_none, optGroup_some]
                simp
              · rw [← hv]
                simp [groupVal]
            · rw [if_neg hS] at h
              simp at h

theorem parse_duration_complete (s : String) (hnm : ¬ durationMatchesCode s) :
    parse_iso8601_duration s = 0 := by
  by_contra hne
  apply hnm
  unfold parse_iso8601_duration at hne
  cases hdata : s.data with
  | nil =>
    rw [hdata] at hne
    exact absurd rfl hne
  | cons c1 tl =>
    cases tl with
    | nil =>
      rw [hdata] at hne
      exact absurd rfl hne
    | cons c2 rest =>
      rw [hdata] at hne
      simp only [parseDurationChars] at hne
      by_cases hpt : c1 = 'P' ∧ c2 = 'T'
      · obtain ⟨h1, h2⟩ := hpt
        subst h1
        subst h2
        rw [if_pos ⟨rfl, rfl⟩] at hne
        cases hg : parseHMSGroup (dropTrailingNewline rest) with
        | none =>
          rw [hg] at hne
          exact absurd rfl hne
        | some v =>
          obtain ⟨hd, md, sd, hv, hrest, _⟩ := parseHMSGroup_complete _ v hg
          refine ⟨hd, md, sd, hv, ?_⟩
          rcases dropTrailingNewline_cases rest with hc | hc
          · left
            rw [hdata]
            rw [hc, hrest]
          · right
            rw [hdata]
            rw [hc, hrest]
      · rw [if_neg hpt] at hne
        exact absurd rfl hne

/-- Claim C3 (amended): for every string of the form `PT` followed by
optional integer `H`, `M`, `S` components in that order (their digits any
Unicode decimal digits, as Python's `\d` and `int()` accept) — optionally
ending in a single trailing newline, which Python's `$` anchor tolerates —
the parser returns `h*3600 + m*60 + s`; for every other string, and in
particular the empty string, it returns 0 (the function is total, so it
never raises); and `PT1H2M3S` parses to 3723 seconds. -/
theorem c3_duration_parse :
    (∀ hd md sd, validGroups hd md sd →
      parse_iso8601_duration (String.mk ('P' :: 'T' :: renderGroups hd md sd)) =
        groupVal hd * 3600 + groupVal md * 60 + groupVal sd ∧
      parse_iso8601_duration (String.mk ('P' :: 'T' :: (renderGroups hd md sd ++ ['\n']))) =
        groupVal hd * 3600 + groupVal md * 60 + groupVal sd) ∧
    (∀ s : String, ¬ durationMatchesCode s → parse_iso8601_duration s = 0) ∧
    parse_iso8601_duration "PT1H2M3S" = 3723 :=
  ⟨parse_duration_sound, parse_duration_complete, by decide⟩

/-- Claim C3 counterexample: the string `PT5S` followed by a newline is not
in the claimed grammar, yet the parser returns 5, not 0 — Python's `$`
anchor matches just before a trailing newline. -/
theorem c3_counterexample :
    parse_iso8601_duration "PT5S\n" = 5 ∧ ¬ durationMatchesStrict "PT5S\n" := by
  constructor
  · decide
  · rintro ⟨hd, md, sd, _, heq⟩
    have hdata : "PT5S\n".data = 'P' :: 'T' :: ['5', 'S', '\n'] := rfl
    rw [hdata] at heq
    injection heq with _ heq2
    injection heq2 with _ heq3
    have hlast := renderGroups_getLast_ne hd md sd
    rw [← heq3] at hlast
    exact hlast (by decide)

theorem not_durationMatchesCode_v123 : ¬ durationMatchesCode "v123" := by
  rintro ⟨hd, md, sd, _, h | h⟩
  · have hdata : "v123".data = ['v', '1', '2', '3'] := rfl
    rw [hdata] at h
    injection h with h1 _
    exact absurd h1 (by decide)
  · have hdata : "v123".data = ['v', '1', '2', '3'] := rfl
    rw [hdata] at h
    injection h with h1 _
    exact absurd h1 (by decide)

/-- Claim C3 witness: the grammar case `1H 2M 3S` (with and without the
tolerated trailing newline) and the non-matching string `v123`. -/
theorem c3_duration_parse_witness :
    validGroups (some ['1']) (some ['2']) (some ['3']) ∧
    (parse_iso8601_duration
        (String.mk ('P' :: 'T' :: renderGroups (some ['1']) (some ['2']) (some ['3']))) =
        groupVal (some ['1']) * 3600 + groupVal (some ['2']) * 60 + groupVal (some ['3']) ∧
      parse_iso8601_duration
          (String.mk
            ('P' :: 'T' :: (renderGroups (some ['1']) (some ['2']) (some ['3']) ++ ['\n']))) =
        groupVal (some ['1']) * 3600 + groupVal (some ['2']) * 60 + groupVal (some ['3'])) ∧
    ¬ durationMatchesCode "v123" ∧ parse_iso8601_duration "v123" = 0 := by
  have hv : validGroups (some ['1']) (some ['2']) (some ['3']) := by
    refine ⟨?_, ?_, ?_⟩ <;> intro ds hds <;> cases hds <;> exact ⟨by decide, by decide⟩
  exact ⟨hv, c3_duration_parse.1 (some ['1']) (some ['2']) (some ['3']) hv,
    not_durationMatchesCode_v123,
    c3_duration_parse.2.1 "v123" not_durationMatchesCode_v123⟩
